import Mathlib

/-!
Shallow embedding of `Lib/defcon/objects/component.py` (the `Component`
object of the defcon font document model) together with theorems about
its identifier registry, notification behaviour, and geometry queries.

Numbers in the affine transformation are embedded as `Int`; identifier
strings and glyph names as `String`; Python `None` as `Option.none`;
the per-glyph identifier scope (a Python `set`) as `Finset String`.
Notifications posted during a mutation are collected in a `List`.
-/

set_option autoImplicit false

namespace Defcon

/-- A 2D affine transformation matrix
`(xScale, xyScale, yxScale, yScale, xOffset, yOffset)`, as stored in
`Component._transformation`. -/
abbrev Transformation := Int × Int × Int × Int × Int × Int

/-- The default transformation `(1, 0, 0, 1, 0, 0)` set in `Component.__init__`. -/
def identityTransformation : Transformation := (1, 0, 0, 1, 0, 0)

/-- An external font object; opaque to the component, only its identity
matters for the embedding. -/
structure Font where
  fontId : Nat
deriving DecidableEq

/-- Modelled from the spec: the owning glyph container is an external
collaborator (its class is not among the sources). The component reaches
it through `BaseObject.getParent()` (in `defcon/objects/base.py`, also not
among the sources), which per the spec returns an optional glyph; the
glyph in turn exposes its own parent font via `getParent()` and an
optional identifier scope set via `identifiers`. -/
structure Glyph where
  font : Option Font
  identifiers : Option (Finset String)
deriving DecidableEq

/-- The mutable state of one `Component`, as initialised by
`Component.__init__`: no base glyph, identity transformation, no
identifier, not dirty. -/
structure Component where
  baseGlyph : Option String := none
  transformation : Transformation := identityTransformation
  identifier : Option String := none
  dirty : Bool := false
deriving DecidableEq

/-- The typed notifications a component posts
(`Component.Changed`, `Component.BaseGlyphChanged`,
`Component.TransformationChanged`, `Component.IdentifierChanged`). -/
inductive Notification
  | changed
  | baseGlyphChanged (oldValue newValue : Option String)
  | transformationChanged (oldValue newValue : Transformation)
  | identifierChanged (oldValue newValue : Option String)
deriving DecidableEq

/-- Modelled from the spec: the `dirty` setter lives in `BaseObject`
(`defcon/objects/base.py`), which is not among the sources; per the spec
(§4.2), setting the dirty flag fires the generic `Changed` notification
alongside every specific change notification. -/
def setDirty (c : Component) : Component × Notification :=
  ({ c with dirty := true }, Notification.changed)

/-- Embeds `Component._set_baseGlyph`: no-op on an equal value, otherwise
store, post `BaseGlyphChanged`, set dirty (which posts `Changed`). -/
def setBaseGlyph (c : Component) (value : Option String) :
    Component × List Notification :=
  let oldValue := c.baseGlyph
  if value = oldValue then (c, [])
  else
    let c1 := { c with baseGlyph := value }
    let (c2, n) := setDirty c1
    (c2, [Notification.baseGlyphChanged oldValue value, n])

/-- Embeds `Component._set_transformation`: no-op on an equal value,
otherwise store, post `TransformationChanged`, set dirty. -/
def setTransformation (c : Component) (value : Transformation) :
    Component × List Notification :=
  let oldValue := c.transformation
  if value = oldValue then (c, [])
  else
    let c1 := { c with transformation := value }
    let (c2, n) := setDirty c1
    (c2, [Notification.transformationChanged oldValue value, n])

/-- Embeds `Component.move`: unpack the stored transformation, add the
offsets to the offset terms, and assign through the `transformation`
property (i.e. through `setTransformation`). -/
def move (c : Component) (offset : Int × Int) : Component × List Notification :=
  let (xScale, xyScale, yxScale, yScale, xOffset, yOffset) := c.transformation
  setTransformation c (xScale, xyScale, yxScale, yScale, xOffset + offset.1, yOffset + offset.2)

/-- The failure signalled by `Component._set_identifier` when the new
value is already in the scope set. The source raises it through
`assert value not in identifiers`; the spec names this failure class
`DuplicateIdentifierError`. -/
inductive DuplicateIdentifierError
  | duplicateIdentifier
deriving DecidableEq

/-- Python membership test `value in identifiers` for an optional string
against a set of strings: `None` is never a member. -/
def memOption (v : Option String) (s : Finset String) : Bool :=
  match v with
  | some x => decide (x ∈ s)
  | none => false

/-- Embeds `Component._get_identifiers`: resolve the scope set from the
parent, falling back to a fresh empty set when the parent is unresolvable
or the parent's set is absent. -/
def getIdentifiers (parent : Option Glyph) : Finset String :=
  match parent with
  | none => ∅
  | some g =>
    match g.identifiers with
    | none => ∅
    | some s => s

/-- Embeds `Component._set_identifier` acting on the component together
with the live scope set `scope` borrowed from the owning glyph. Returns
the updated component, the updated scope set, the notifications posted,
and `some DuplicateIdentifierError.duplicateIdentifier` when the
`assert value not in identifiers` fails (in which case nothing has been
mutated yet, so the returned state equals the input state). -/
def setIdentifier (c : Component) (scope : Finset String) (value : Option String) :
    (Component × Finset String × List Notification) × Option DuplicateIdentifierError :=
  let oldIdentifier := c.identifier
  if value = oldIdentifier then ((c, scope, []), none)
  else if memOption value scope then
    ((c, scope, []), some DuplicateIdentifierError.duplicateIdentifier)
  else
    let scope1 :=
      match oldIdentifier with
      | some o => if o ∈ scope then scope.erase o else scope
      | none => scope
    let c1 := { c with identifier := value }
    let scope2 :=
      match value with
      | some s => insert s scope1
      | none => scope1
    let (c2, n) := setDirty c1
    ((c2, scope2, [Notification.identifierChanged oldIdentifier value, n]), none)

/-- The object handed to a bounds or containment pen as its glyph set /
document context. In `Component._get_bounds` and
`Component._get_controlPointBounds` it is the font obtained from
`glyph.getParent()`; in `Component.pointInside` the source instead passes
the result of a second `self.getParent()` call, i.e. the glyph itself. -/
inductive DocumentContext
  | fromGlyph (g : Glyph)
  | fromFont (f : Font)
deriving DecidableEq

/-- Embeds `Component._get_bounds`: return `None` when the parent glyph or
the glyph's parent font is unresolvable, otherwise drive a `BoundsPen`
constructed over the font (the pen is an external collaborator, abstracted
as the function `penBounds` from the font and the drawn component to the
pen's accumulated `bounds`, which may itself be `None`). -/
def bounds (c : Component) (parent : Option Glyph)
    (penBounds : Font → Component → Option (Int × Int × Int × Int)) :
    Option (Int × Int × Int × Int) :=
  match parent with
  | none => none
  | some glyph =>
    match glyph.font with
    | none => none
    | some font => penBounds font c

/-- Embeds `Component._get_controlPointBounds`: identical resolution
structure to `bounds`, driving a `ControlBoundsPen` instead. -/
def controlPointBounds (c : Component) (parent : Option Glyph)
    (penBounds : Font → Component → Option (Int × Int × Int × Int)) :
    Option (Int × Int × Int × Int) :=
  match parent with
  | none => none
  | some glyph =>
    match glyph.font with
    | none => none
    | some font => penBounds font c

/-- Embeds the document-context resolution prefix of
`Component.pointInside` exactly as written in the source:
`glyph = self.getParent()`, early `False` when `None`, then
`font = self.getParent()` — a second call on `self`, so the variable
`font` holds the same glyph — early `False` when `None`, then the pen is
constructed with `glyphSet=font`. `none` here means the early `False`
return was taken; `some ctx` means a pen is constructed over `ctx`. -/
def pointInsideContext (parent : Option Glyph) : Option DocumentContext :=
  match parent with
  | none => none
  | some _ =>
    match parent with
    | none => none
    | some g => some (DocumentContext.fromGlyph g)

/-- The document-context resolution that the spec (§4.4) prescribes for
`pointInside`, for comparison with `pointInsideContext`: resolve the
owning glyph, then that glyph's font; absent context when either link is
unresolvable; otherwise the font is the pen's document context. -/
def pointInsideContextSpec (parent : Option Glyph) : Option DocumentContext :=
  match parent with
  | none => none
  | some g =>
    match g.font with
    | none => none
    | some f => some (DocumentContext.fromFont f)

/-- Embeds `Component.pointInside`: resolve the context as the source
does; on failure return `False`; otherwise construct a `PointInsidePen`
over the context and return its result (the pen is external, abstracted
as `penResult` from the context, the drawn component, the test point and
the `evenOdd` flag to the boolean answer). -/
def pointInside (c : Component) (parent : Option Glyph)
    (penResult : DocumentContext → Component → Int × Int → Bool → Bool)
    (p : Int × Int) (evenOdd : Bool) : Bool :=
  match pointInsideContext parent with
  | none => false
  | some ctx => penResult ctx c p evenOdd

/-- The Python errors relevant to `Component.drawPoints`: the `TypeError`
its `try` block catches, and any other error, which it propagates. -/
inductive PyError
  | typeError
  | otherError
deriving DecidableEq

/-- How a call to `Component.drawPoints` ends: it completed (recording
whether the `DeprecationWarning` about the missing identifier kwarg was
emitted), or an uncaught error propagated. -/
inductive DrawStatus
  | completed (warned : Bool)
  | raised (e : PyError)
deriving DecidableEq

/-- A point pen, the external visitor driven by `Component.drawPoints`,
with mutable state `σ`. Its single Python method `addComponent` is
embedded as two entry points: `addComponentFull` is the call with the
`identifier` keyword argument — it returns the updated pen state and
optionally an error (a signature that rejects the keyword yields
`typeError` with the state untouched, since the body never runs; a body
that raises part-way returns the state as mutated so far) — and
`addComponentBasic` is the retry call without the keyword. -/
structure PointPen (σ : Type) where
  addComponentFull : σ → Option String → Transformation → Option String → σ × Option PyError
  addComponentBasic : σ → Option String → Transformation → σ

/-- Embeds `Component.drawPoints`: call `addComponent` with the
`identifier` keyword; on `TypeError` retry without it and warn; propagate
any other error. -/
def drawPoints {σ : Type} (pen : PointPen σ) (c : Component) (s : σ) : σ × DrawStatus :=
  match pen.addComponentFull s c.baseGlyph c.transformation c.identifier with
  | (s1, none) => (s1, DrawStatus.completed false)
  | (s1, some PyError.typeError) =>
    (pen.addComponentBasic s1 c.baseGlyph c.transformation, DrawStatus.completed true)
  | (s1, some PyError.otherError) => (s1, DrawStatus.raised PyError.otherError)

/-- The state of one glyph for the identifier-registry protocol: its
identifier scope set and the components it owns. -/
structure GlyphState where
  scope : Finset String
  components : List Component

/-- Assign identifier `value` to the `k`-th component owned by the glyph,
through `Component._set_identifier`, with the glyph's scope set as the
live `identifiers` set. An out-of-range index or a failed assignment
(the `assert` raising) leaves the glyph state unchanged. -/
def glyphSetIdentifier (g : GlyphState) (k : Nat) (value : Option String) : GlyphState :=
  match g.components[k]? with
  | none => g
  | some c =>
    let r := setIdentifier c g.scope value
    match r.2 with
    | some _ => g
    | none => { scope := r.1.2.1, components := g.components.set k r.1.1 }

/-- A glyph freshly holding `n` default components: empty scope set,
every component as `Component.__init__` leaves it. -/
def glyphInit (n : Nat) : GlyphState :=
  { scope := ∅, components := List.replicate n {} }

/-- Run a sequence of identifier assignments `(component index, value)`
against a glyph state. -/
def runAssignments (g : GlyphState) (ops : List (Nat × Option String)) : GlyphState :=
  ops.foldl (fun g op => glyphSetIdentifier g op.1 op.2) g

/-- The identifier-registry invariant of a glyph: no two distinct live
components hold the same non-absent identifier, and every non-absent
identifier held by a component is a member of the glyph's scope set. -/
def GlyphInvariant (g : GlyphState) : Prop :=
  (∀ (i j : Nat) (ci cj : Component) (s : String),
    g.components[i]? = some ci → g.components[j]? = some cj →
    i ≠ j → ci.identifier = some s → cj.identifier ≠ some s) ∧
  (∀ (i : Nat) (ci : Component) (s : String),
    g.components[i]? = some ci → ci.identifier = some s → s ∈ g.scope)

/-- A concrete pen rejecting the identifier keyword, counting the calls
to its basic entry point. -/
def rejectingPen : PointPen Nat :=
  { addComponentFull := fun s1 _ _ _ => (s1, some PyError.typeError),
    addComponentBasic := fun s1 _ _ => s1 + 1 }

/-- A concrete pen that accepts the identifier argument — its body runs
and records the call, with the flag marking whether the identifier was
passed — but then raises `TypeError` internally. -/
def recordingPen : PointPen (List (Option String × Transformation × Bool)) :=
  { addComponentFull := fun s1 b t _ => (s1 ++ [(b, t, true)], some PyError.typeError),
    addComponentBasic := fun s1 b t => s1 ++ [(b, t, false)] }

/-- The scope set after a successful identifier assignment replacing
`old` by `v`: the old identifier removed when present, the new value
inserted when non-absent. Factored out of `setIdentifier` for use in
proofs. -/
def scopeAfter (old v : Option String) (scope : Finset String) : Finset String :=
  let scope1 :=
    match old with
    | some o => if o ∈ scope then scope.erase o else scope
    | none => scope
  match v with
  | some s => insert s scope1
  | none => scope1

/-! ## Theorems -/

/-- Helper: the effect of `setIdentifier` when the new value differs from
the current identifier and is not already in the scope set. -/
theorem setIdentifier_success (c : Component) (scope : Finset String) (v : Option String)
    (h1 : ¬(v = c.identifier)) (h2 : memOption v scope = false) :
    setIdentifier c scope v =
      (({ c with identifier := v, dirty := true }, scopeAfter c.identifier v scope,
        [Notification.identifierChanged c.identifier v, Notification.changed]), none) := by
  unfold setIdentifier scopeAfter
  simp [h1, h2, setDirty]

/-- Helper: a string in the scope and different from the replaced old
identifier stays in the scope across `scopeAfter`. -/
theorem mem_scopeAfter_of_ne (old v : Option String) (scope : Finset String) (s : String)
    (hs : s ∈ scope) (hold : old ≠ some s) : s ∈ scopeAfter old v scope := by
  unfold scopeAfter
  have hs1 : s ∈ (match old with
      | some o => if o ∈ scope then scope.erase o else scope
      | none => scope) := by
    rcases old with _ | o
    · exact hs
    · have hso : ¬(s = o) := fun hEq => hold (by rw [hEq])
      by_cases hmem : o ∈ scope <;> simp [hmem, Finset.mem_erase, hso, hs]
  rcases v with _ | s2
  · exact hs1
  · exact Finset.mem_insert_of_mem hs1

/-- Helper: the newly assigned identifier is in the scope after the
assignment. -/
theorem self_mem_scopeAfter (old : Option String) (s : String) (scope : Finset String) :
    s ∈ scopeAfter old (some s) scope := by
  unfold scopeAfter
  exact Finset.mem_insert_self s _

/-- Helper: the glyph invariant is preserved by replacing the `k`-th
component and the scope set, provided the replacement's identifier
conflicts with no other live component, is registered in the new scope,
and all other components' identifiers remain in the new scope. -/
theorem glyphInvariant_set (g : GlyphState) (k : Nat) (c c' : Component)
    (scope' : Finset String) (hc : g.components[k]? = some c)
    (h : GlyphInvariant g)
    (hfresh : ∀ (j : Nat) (cj : Component) (s : String), j ≠ k →
      g.components[j]? = some cj → cj.identifier = some s → c'.identifier ≠ some s)
    (hmem' : ∀ s : String, c'.identifier = some s → s ∈ scope')
    (hkeep : ∀ (j : Nat) (cj : Component) (s : String), j ≠ k →
      g.components[j]? = some cj → cj.identifier = some s → s ∈ scope') :
    GlyphInvariant { scope := scope', components := g.components.set k c' } := by
  obtain ⟨huniq, hmem⟩ := h
  have hk : k < g.components.length := (List.getElem?_eq_some.mp hc).1
  have hget : ∀ (i : Nat) (ci : Component),
      (g.components.set k c')[i]? = some ci →
      (i = k ∧ ci = c') ∨ (i ≠ k ∧ g.components[i]? = some ci) := by
    intro i ci hi
    by_cases hik : i = k
    · subst hik
      rw [List.getElem?_set_eq_of_lt c' hk] at hi
      exact Or.inl ⟨rfl, (Option.some_inj.mp hi).symm⟩
    · rw [List.getElem?_set_ne (fun hEq => hik hEq.symm)] at hi
      exact Or.inr ⟨hik, hi⟩
  constructor
  · intro i j ci cj s hi hj hij hci
    rcases hget i ci hi with ⟨hik, hci'⟩ | ⟨hik, hi'⟩ <;>
      rcases hget j cj hj with ⟨hjk, hcj'⟩ | ⟨hjk, hj'⟩
    · exact absurd (hik.trans hjk.symm) hij
    · intro hcjs
      exact hfresh j cj s hjk hj' hcjs (hci' ▸ hci)
    · intro hcjs
      exact hfresh i ci s hik hi' hci (hcj' ▸ hcjs)
    · exact huniq i j ci cj s hi' hj' hij hci
  · intro i ci s hi hci
    rcases hget i ci hi with ⟨hik, hci'⟩ | ⟨hik, hi'⟩
    · exact hmem' s (hci' ▸ hci)
    · exact hkeep i ci s hik hi' hci

/-- Helper: a freshly initialised glyph satisfies the identifier
invariant. -/
theorem glyphInvariant_init (n : Nat) : GlyphInvariant (glyphInit n) := by
  constructor
  · intro i j ci cj s hi hj hij hci
    have hdef : ci = ({} : Component) := List.eq_of_mem_replicate (List.getElem?_mem hi)
    rw [hdef] at hci
    cases hci
  · intro i ci s hi hci
    have hdef : ci = ({} : Component) := List.eq_of_mem_replicate (List.getElem?_mem hi)
    rw [hdef] at hci
    cases hci

/-- Helper: one identifier assignment through the glyph preserves the
identifier invariant. -/
theorem glyphInvariant_step (g : GlyphState) (k : Nat) (v : Option String)
    (h : GlyphInvariant g) : GlyphInvariant (glyphSetIdentifier g k v) := by
  obtain ⟨huniq, hmem⟩ := h
  cases hc : g.components[k]? with
  | none =>
    have hres : glyphSetIdentifier g k v = g := by
      unfold glyphSetIdentifier
      simp only [hc]
    rw [hres]
    exact ⟨huniq, hmem⟩
  | some c =>
    by_cases hv : v = c.identifier
    · have hset : setIdentifier c g.scope v = ((c, g.scope, []), none) := by
        unfold setIdentifier
        simp [hv]
      have hres : glyphSetIdentifier g k v =
          { scope := g.scope, components := g.components.set k c } := by
        unfold glyphSetIdentifier
        simp only [hc, hset]
      rw [hres]
      exact glyphInvariant_set g k c c g.scope hc ⟨huniq, hmem⟩
        (fun j cj s hj hcj hs => huniq j k cj c s hcj hc hj hs)
        (fun s hs => hmem k c s hc hs)
        (fun j cj s _ hcj hs => hmem j cj s hcj hs)
    · by_cases hdup : memOption v g.scope = true
      · have hset : setIdentifier c g.scope v =
            ((c, g.scope, []), some DuplicateIdentifierError.duplicateIdentifier) := by
          unfold setIdentifier
          simp [hv, hdup]
        have hres : glyphSetIdentifier g k v = g := by
          unfold glyphSetIdentifier
          simp only [hc, hset]
        rw [hres]
        exact ⟨huniq, hmem⟩
      · have hdup' : memOption v g.scope = false := by
          revert hdup
          cases memOption v g.scope <;> simp
        have hset := setIdentifier_success c g.scope v hv hdup'
        have hres : glyphSetIdentifier g k v =
            { scope := scopeAfter c.identifier v g.scope,
              components := g.components.set k { c with identifier := v, dirty := true } } := by
          unfold glyphSetIdentifier
          simp only [hc, hset]
        rw [hres]
        apply glyphInvariant_set g k c _ _ hc ⟨huniq, hmem⟩
        · intro j cj s hj hcj hs
          intro hvs
          have hsv : v = some s := hvs
          have hsmem : s ∈ g.scope := hmem j cj s hcj hs
          rw [hsv] at hdup'
          simp [memOption, hsmem] at hdup'
        · intro s hs
          have hsv : v = some s := hs
          rw [hsv]
          exact self_mem_scopeAfter c.identifier s g.scope
        · intro j cj s hj hcj hs
          exact mem_scopeAfter_of_ne c.identifier v g.scope s
            (hmem j cj s hcj hs) (huniq j k cj c s hcj hc hj hs)

/-- C1: for every number of components owned by one glyph and every
sequence of identifier assignments to them, at every point (i.e. after
every such sequence) at most one live component within the glyph holds
any given non-absent identifier, and every non-absent identifier held by
a component is a member of the glyph's identifier scope set. -/
theorem identifier_uniqueness_invariant (n : Nat) (ops : List (Nat × Option String)) :
    GlyphInvariant (runAssignments (glyphInit n) ops) := by
  suffices h : ∀ g : GlyphState, GlyphInvariant g → GlyphInvariant (runAssignments g ops) from
    h (glyphInit n) (glyphInvariant_init n)
  induction ops with
  | nil => exact fun g hg => hg
  | cons op rest ih =>
    exact fun g hg => ih (glyphSetIdentifier g op.1 op.2) (glyphInvariant_step g op.1 op.2 hg)

/-- Helper: the effect of `setTransformation` on an unequal value. -/
theorem setTransformation_of_ne (c : Component) (v : Transformation)
    (h : ¬(v = c.transformation)) :
    setTransformation c v =
      ({ c with transformation := v, dirty := true },
        [Notification.transformationChanged c.transformation v, Notification.changed]) := by
  unfold setTransformation
  simp [h, setDirty]

/-- C2: for every component and every non-absent value `some s` different
from its current identifier, if `s` is already present in the resolved
identifier scope set, then setting the identifier fails with
`DuplicateIdentifierError` and leaves the component, the scope set, the
dirty flag and the notification stream unchanged. -/
theorem duplicate_identifier_fails_atomically
    (c : Component) (scope : Finset String) (s : String)
    (h1 : some s ≠ c.identifier) (h2 : s ∈ scope) :
    setIdentifier c scope (some s) =
      ((c, scope, []), some DuplicateIdentifierError.duplicateIdentifier) := by
  unfold setIdentifier
  simp [h1, memOption, h2]

/-- Witness for `duplicate_identifier_fails_atomically` at a concrete
component holding no identifier and a scope already containing `"a"`. -/
theorem duplicate_identifier_fails_atomically_witness :
    (some "a" ≠ ({} : Component).identifier) ∧ ("a" ∈ ({"a"} : Finset String)) ∧
    setIdentifier {} {"a"} (some "a") =
      (({}, ({"a"} : Finset String), []), some DuplicateIdentifierError.duplicateIdentifier) :=
  ⟨by decide, by decide,
    duplicate_identifier_fails_atomically {} {"a"} "a" (by decide) (by decide)⟩

/-- C5: a component whose parent glyph is unresolvable yields an absent
result from `bounds` and `controlPointBounds` and `false` from
`pointInside`, whatever the external pens would compute; in this total
embedding no error is raised. -/
theorem detached_component_safety (c : Component)
    (penB penCB : Font → Component → Option (Int × Int × Int × Int))
    (penPI : DocumentContext → Component → Int × Int → Bool → Bool)
    (p : Int × Int) (evenOdd : Bool) :
    bounds c none penB = none ∧
    controlPointBounds c none penCB = none ∧
    pointInside c none penPI p evenOdd = false :=
  ⟨rfl, rfl, rfl⟩

/-- C6: setting `baseGlyph`, `transformation`, or `identifier` to its
current value posts no notification, leaves the component (including its
dirty flag) unchanged, and leaves the identifier scope set unchanged. -/
theorem noop_setters_stable (c : Component) (scope : Finset String) :
    setBaseGlyph c c.baseGlyph = (c, []) ∧
    setTransformation c c.transformation = (c, []) ∧
    setIdentifier c scope c.identifier = ((c, scope, []), none) := by
  refine ⟨?_, ?_, ?_⟩ <;> simp [setBaseGlyph, setTransformation, setIdentifier]

/-- C9: the `identifiers` accessor always returns a set: the empty set
when the parent is unresolvable, and otherwise the parent's scope set
with an absent scope defaulting to the empty set — never an absent
result. -/
theorem identifiers_accessor_total :
    getIdentifiers none = (∅ : Finset String) ∧
    (∀ g : Glyph, getIdentifiers (some g) = g.identifiers.getD ∅) := by
  refine ⟨rfl, fun g => ?_⟩
  cases h : g.identifiers <;> simp [getIdentifiers, h]

/-- C4 (code bug): for a component attached to a glyph whose own parent
font is unresolvable, the source's `pointInside` does not return `false`:
because it resolves `font = self.getParent()` (instead of
`glyph.getParent()`), it passes the owning glyph itself to the pen as the
document context and proceeds with the query, while the spec-prescribed
resolution is absent there (so the spec answer is `false`). With a pen
that answers `true`, the embedded code answers `true` where the claim
requires `false`. -/
theorem point_inside_context_bug :
    pointInsideContext (some { font := none, identifiers := none }) =
      some (DocumentContext.fromGlyph { font := none, identifiers := none }) ∧
    pointInsideContextSpec (some { font := none, identifiers := none }) = none ∧
    pointInside {} (some { font := none, identifiers := none })
      (fun _ _ _ _ => true) (0, 0) false = true :=
  ⟨rfl, rfl, rfl⟩

/-- C8: a point pen whose `addComponent` rejects the `identifier` keyword
argument (a signature mismatch raises `TypeError` before the body runs,
leaving the pen state untouched) is retried without the identifier: the
draw completes without raising, the deprecation warning is emitted, and
the pen still receives the base glyph reference and the transformation
through `addComponentBasic`. -/
theorem draw_points_degrades_gracefully {σ : Type}
    (pen : PointPen σ) (c : Component) (s : σ)
    (hreject : ∀ s1 b t i, pen.addComponentFull s1 b t i = (s1, some PyError.typeError)) :
    drawPoints pen c s =
      (pen.addComponentBasic s c.baseGlyph c.transformation, DrawStatus.completed true) := by
  simp [drawPoints, hreject]

/-- Witness for `draw_points_degrades_gracefully` on `rejectingPen`. -/
theorem draw_points_degrades_gracefully_witness :
    (∀ (s1 : Nat) (b : Option String) (t : Transformation) (i : Option String),
      rejectingPen.addComponentFull s1 b t i = (s1, some PyError.typeError)) ∧
    drawPoints rejectingPen {} 0 = (1, DrawStatus.completed true) :=
  ⟨fun _ _ _ _ => rfl,
    draw_points_degrades_gracefully rejectingPen {} 0 (fun _ _ _ _ => rfl)⟩

/-- C10: the fallback in `drawPoints` is triggered by any `TypeError`,
not only a signature mismatch: a pen that accepts the identifier argument
but raises `TypeError` internally observes two `addComponent` calls for a
single `drawPoints` call — first with, then without the identifier — and
the pen's error is not propagated. -/
theorem draw_points_retries_on_internal_type_error :
    drawPoints recordingPen {} [] =
      ([(none, identityTransformation, true), (none, identityTransformation, false)],
        DrawStatus.completed true) := rfl

/-- C7 counterexample: `move` with the zero offset translates the
transformation to itself, so the `transformation` setter takes its no-op
branch: no `TransformationChanged` and no `Changed` notification is
posted and the dirty flag stays `false`, contradicting the claim's
"every offsets dx,dy ... posts exactly one TransformationChanged
notification and one Changed notification and sets the dirty flag". -/
theorem move_zero_offset_counterexample :
    (move {} (0, 0)).2 = [] ∧ (move {} (0, 0)).1.dirty = false := by decide

/-- C7 (amended): for every component and nonzero offset `(dx, dy)`,
`move` is the same operation as setting the transformation to the
translated tuple — only the offset terms change — and posts exactly one
`TransformationChanged` notification followed by one `Changed`
notification, and sets the dirty flag. -/
theorem move_composition (comp : Component) (a b cc dd x y dx dy : Int)
    (ht : comp.transformation = (a, b, cc, dd, x, y))
    (hnz : ¬(dx = 0 ∧ dy = 0)) :
    move comp (dx, dy) = setTransformation comp (a, b, cc, dd, x + dx, y + dy) ∧
    (move comp (dx, dy)).1.transformation = (a, b, cc, dd, x + dx, y + dy) ∧
    (move comp (dx, dy)).2 =
      [Notification.transformationChanged (a, b, cc, dd, x, y) (a, b, cc, dd, x + dx, y + dy),
        Notification.changed] ∧
    (move comp (dx, dy)).1.dirty = true := by
  have h1 : move comp (dx, dy) = setTransformation comp (a, b, cc, dd, x + dx, y + dy) := by
    simp [move, ht]
  have hne : ¬((a, b, cc, dd, x + dx, y + dy) = comp.transformation) := by
    rw [ht]
    intro hEq
    have h5 : x + dx = x := congrArg (fun t : Transformation => t.2.2.2.2.1) hEq
    have h6 : y + dy = y := congrArg (fun t : Transformation => t.2.2.2.2.2) hEq
    exact hnz ⟨by omega, by omega⟩
  have h2 := setTransformation_of_ne comp (a, b, cc, dd, x + dx, y + dy) hne
  rw [ht] at h2
  exact ⟨h1, by rw [h1, h2], by rw [h1, h2], by rw [h1, h2]⟩

/-- Witness for `move_composition` on a fresh component moved by
`(2, 3)`. -/
theorem move_composition_witness :
    (({} : Component).transformation = ((1 : Int), 0, 0, 1, 0, 0)) ∧
    ¬((2 : Int) = 0 ∧ (3 : Int) = 0) ∧
    (move {} (2, 3) = setTransformation {} (1, 0, 0, 1, 0 + 2, 0 + 3) ∧
      (move {} (2, 3)).1.transformation = (1, 0, 0, 1, 0 + 2, 0 + 3) ∧
      (move {} (2, 3)).2 =
        [Notification.transformationChanged (1, 0, 0, 1, 0, 0) (1, 0, 0, 1, 0 + 2, 0 + 3),
          Notification.changed] ∧
      (move {} (2, 3)).1.dirty = true) :=
  ⟨rfl, by decide, move_composition {} 1 0 0 1 0 0 2 3 rfl (by decide)⟩

/-- C3: a successful identifier assignment (new value different from the
current one and not already in the scope set) stores the new value,
marks the component dirty, removes the old identifier from the scope set,
inserts the new value into the scope set exactly when it is non-absent
(clearing to absent leaves the scope as the old set minus the old
identifier and registers nothing), posts one `IdentifierChanged`
notification carrying old and new followed by the `Changed`
notification, and after clearing, another component may claim the old
identifier. -/
theorem set_identifier_scope_transfer
    (c : Component) (scope : Finset String) (v : Option String)
    (h1 : v ≠ c.identifier) (h2 : memOption v scope = false) :
    (setIdentifier c scope v).2 = none ∧
    (setIdentifier c scope v).1.1.identifier = v ∧
    (setIdentifier c scope v).1.1.dirty = true ∧
    (∀ o : String, c.identifier = some o → o ∉ (setIdentifier c scope v).1.2.1) ∧
    (∀ s : String, v = some s → s ∈ (setIdentifier c scope v).1.2.1) ∧
    (∀ o : String, v = none → c.identifier = some o →
      (setIdentifier c scope v).1.2.1 = scope.erase o) ∧
    ((setIdentifier c scope v).1.2.2 =
      [Notification.identifierChanged c.identifier v, Notification.changed]) ∧
    (∀ (o : String) (c2 : Component), v = none → c.identifier = some o →
      some o ≠ c2.identifier →
      (setIdentifier c2 (setIdentifier c scope v).1.2.1 (some o)).2 = none) := by
  rcases hv : v with _ | s
  · subst hv
    rcases ho : c.identifier with _ | o
    · exact absurd ho.symm h1
    · have hmain :
          setIdentifier c scope none =
            (({ c with identifier := none, dirty := true },
              (if o ∈ scope then scope.erase o else scope),
              [Notification.identifierChanged c.identifier none, Notification.changed]), none) := by
        unfold setIdentifier
        simp [h1, memOption, ho, setDirty]
      have hscope : (if o ∈ scope then scope.erase o else scope) = scope.erase o := by
        by_cases hmem : o ∈ scope
        · simp [hmem]
        · simp [hmem, Finset.erase_eq_of_not_mem hmem]
      have hout : o ∉ (if o ∈ scope then scope.erase o else scope) := by
        rw [hscope]; exact Finset.not_mem_erase o scope
      refine ⟨by rw [hmain], by rw [hmain], by rw [hmain], ?_, ?_, ?_, by rw [hmain, ho], ?_⟩
      · intro o2 ho2
        have ho2' : o2 = o := (Option.some_inj.mp ho2).symm
        subst ho2'
        rw [hmain]
        exact hout
      · intro s hs
        cases hs
      · intro o2 _ ho2
        have ho2' : o2 = o := (Option.some_inj.mp ho2).symm
        subst ho2'
        rw [hmain]
        exact hscope
      · intro o2 c2 _ ho2 hne2
        have ho2' : o2 = o := (Option.some_inj.mp ho2).symm
        subst ho2'
        rw [hmain]
        unfold setIdentifier
        simp [hne2, memOption, hout]
  · subst hv
    have hs : s ∉ scope := by simpa [memOption] using h2
    have hmain :
        setIdentifier c scope (some s) =
          (({ c with identifier := some s, dirty := true },
            insert s
              (match c.identifier with
                | some o => if o ∈ scope then scope.erase o else scope
                | none => scope),
            [Notification.identifierChanged c.identifier (some s), Notification.changed]),
            none) := by
      unfold setIdentifier
      simp [h1, memOption, hs, setDirty]
    refine ⟨by rw [hmain], by rw [hmain], by rw [hmain], ?_, ?_, ?_, by rw [hmain], ?_⟩
    · intro o ho
      have hos : ¬(o = s) := fun hEq => h1 (by rw [ho, hEq])
      rw [hmain, ho]
      by_cases hmem : o ∈ scope <;>
        simp [hmem, Finset.mem_insert, hos, Finset.not_mem_erase]
    · intro s2 hs2
      have hs2' : s2 = s := (Option.some_inj.mp hs2).symm
      subst hs2'
      rw [hmain]
      exact Finset.mem_insert_self s2 _
    · intro o hFalse
      cases hFalse
    · intro o c2 hFalse
      cases hFalse

/-- Witness for `set_identifier_scope_transfer`: a component holding
identifier `"a"`, scope `{"a"}`, reassigned to `"b"`. -/
theorem set_identifier_scope_transfer_witness :
    ((some "b" : Option String) ≠ ({ identifier := some "a" } : Component).identifier) ∧
    (memOption (some "b") ({"a"} : Finset String) = false) ∧
    ((setIdentifier { identifier := some "a" } {"a"} (some "b")).2 = none ∧
      (setIdentifier { identifier := some "a" } {"a"} (some "b")).1.1.identifier = some "b" ∧
      (setIdentifier { identifier := some "a" } {"a"} (some "b")).1.1.dirty = true ∧
      (∀ o : String, ({ identifier := some "a" } : Component).identifier = some o →
        o ∉ (setIdentifier { identifier := some "a" } {"a"} (some "b")).1.2.1) ∧
      (∀ s : String, (some "b" : Option String) = some s →
        s ∈ (setIdentifier { identifier := some "a" } {"a"} (some "b")).1.2.1) ∧
      (∀ o : String, (some "b" : Option String) = none →
        ({ identifier := some "a" } : Component).identifier = some o →
        (setIdentifier { identifier := some "a" } {"a"} (some "b")).1.2.1 =
          ({"a"} : Finset String).erase o) ∧
      ((setIdentifier { identifier := some "a" } {"a"} (some "b")).1.2.2 =
        [Notification.identifierChanged (some "a") (some "b"), Notification.changed]) ∧
      (∀ (o : String) (c2 : Component), (some "b" : Option String) = none →
        ({ identifier := some "a" } : Component).identifier = some o →
        some o ≠ c2.identifier →
        (setIdentifier c2
          (setIdentifier { identifier := some "a" } {"a"} (some "b")).1.2.1 (some o)).2 =
          none)) :=
  ⟨by decide, by decide,
    set_identifier_scope_transfer { identifier := some "a" } {"a"} (some "b")
      (by decide) (by decide)⟩

end Defcon
